/-
Verification of the HRMS RAG agent's conversation state machine and
supporting services, as a shallow embedding of the Python sources
(`app/workflows/nodes.py`, `app/workflows/rag_graph.py`,
`app/services/chat_service.py`, `app/models/agent_session.py`,
`app/models/database.py`, `app/workflows/tools/leave_apply.py`).

Modelling conventions:
* A chat message (LangChain object or plain dict) is a `Message` record.
  Missing attributes / dict keys are `Option.none`; Python truthiness of a
  string is "nonempty"; `isDict` distinguishes dict-style messages from
  attribute-style (LangChain) objects, because the Python code branches on
  `isinstance(msg, dict)` / `hasattr`.
* LLM invocations are external and nondeterministic; a model call is
  abstracted as an input parameter holding the judgement the model would
  return.  Every function is otherwise translated clause by clause from the
  Python source.
* Timestamps are integers (seconds); `datetime.now()` is an explicit `now`
  argument, `timedelta(hours=h)` is `h * 3600`.
* Python functions that can raise return `Except String α`; the error
  carries the exception class name.
-/
import Mathlib

namespace HRMS

/-- One entry of an assistant message's `tool_calls` list.  `id` is the
declared call id (`none` = attribute/key missing or `None`); `isDict`
records whether the tool call is a plain dict (checked first by
`generate_query_or_respond`) or an attribute-style object. -/
structure ToolCall where
  isDict : Bool
  id : Option String
  name : Option String
  deriving Repr, DecidableEq

/-- A chat message, unifying LangChain message objects and dict-style
messages.  `type_` is the `type` attribute/key (`"human"`, `"ai"`,
`"tool"`, ...), `role` the `role` key (`"user"`, `"assistant"`,
`"tool"`, ...); LangChain objects have no `role` attribute and dicts have
no attributes, so each style populates the fields it actually carries. -/
structure Message where
  isDict : Bool
  type_ : Option String := none
  role : Option String := none
  content : Option String := none
  tool_calls : List ToolCall := []
  tool_call_id : Option String := none
  name : Option String := none
  deriving Repr, DecidableEq

namespace Message

/-- `is_ai = (msg_type == "ai") or (msg_role == "assistant")`
(nodes.py line 116). -/
def isAi (m : Message) : Bool :=
  m.type_ == some "ai" || m.role == some "assistant"

/-- `is_tool = (next_type == "tool") or (next_role == "tool")`
(nodes.py line 152). -/
def isTool (m : Message) : Bool :=
  m.type_ == some "tool" || m.role == some "tool"

/-- `(next_type == "human") or (next_role == "user")` — the "new turn"
break condition of the look-ahead scan (nodes.py line 165). -/
def isUserBreak (m : Message) : Bool :=
  m.type_ == some "human" || m.role == some "user"

/-- The user-message test of `_get_latest_user_question` (nodes.py lines
84-87): attribute-style messages match on `type == "human"`, dict-style
messages on `role == "user"`. -/
def isUserMsg (m : Message) : Bool :=
  if m.isDict then m.role == some "user" else m.type_ == some "human"

end Message

/-- Extraction of the declared tool-call ids (nodes.py lines 128-135):
for a dict-style tool call, `tc.get('id')` followed by a truthiness check
(so a missing, `None` or empty id is skipped); for an attribute-style tool
call, `tc.id` is added whenever the attribute exists (no truthiness
check). -/
def extractIds (tcs : List ToolCall) : List String :=
  tcs.filterMap fun tc =>
    match tc.id with
    | some s => if tc.isDict && s == "" then none else some s
    | none => none

/-- The contribution of a single scanned message to `found_responses`
(nodes.py lines 152-162): a tool message whose truthy `tool_call_id` is
among the declared ids contributes that id. -/
def responseHit (ids : List String) (m : Message) : List String :=
  if m.isTool then
    match m.tool_call_id with
    | some tid => if tid ≠ "" ∧ tid ∈ ids then [tid] else []
    | none => []
  else []

/-- The look-ahead scan of nodes.py lines 145-166: walk the messages after
an assistant message, collect the `tool_call_id` of every tool message
whose id is among the declared ids, and stop after processing a message
that starts a new user turn (the scan `break`s after the current
iteration, so a message that is simultaneously a tool response and a
user-turn marker is still collected). -/
def foundResponses (ids : List String) : List Message → List String
  | [] => []
  | m :: rest =>
    if m.isUserBreak then responseHit ids m
    else responseHit ids m ++ foundResponses ids rest

/-- The keep decision of nodes.py lines 118-172 for an assistant message
with a nonempty `tool_calls` list, given the messages that follow it:
kept iff some ids could be extracted and every extracted id has a matching
tool response (`found_responses != tool_call_ids` together with
`found_responses ⊆ tool_call_ids` means: keep iff every id was found). -/
def keepIncompleteCheck (m : Message) (rest : List Message) : Bool :=
  let ids := extractIds m.tool_calls
  !ids.isEmpty && ids.all fun tid => decide (tid ∈ foundResponses ids rest)

/-- The corrupted-checkpoint repair pass of `generate_query_or_respond`
(nodes.py lines 108-176): drop every assistant message whose declared
tool calls lack a matching tool response before the next user message,
keep everything else in order. -/
def cleanMessages : List Message → List Message
  | [] => []
  | m :: rest =>
    if m.isAi && !m.tool_calls.isEmpty then
      if keepIncompleteCheck m rest then m :: cleanMessages rest
      else cleanMessages rest
    else m :: cleanMessages rest

/-! ### `_get_latest_user_question` (nodes.py lines 67-91) -/

/-- Python attribute access `msg.content`: raises `AttributeError` on a
dict (dicts have no `content` attribute) and on an object lacking the
attribute. -/
def attrContent (m : Message) : Except String String :=
  if m.isDict then .error "AttributeError"
  else
    match m.content with
    | some c => .ok c
    | none => .error "AttributeError"

/-- The value returned for a matched user message (nodes.py lines 85, 88):
`msg.content` for an attribute-style message, `msg.get("content", "")` for
a dict. -/
def msgContentForUser (m : Message) : Except String String :=
  if m.isDict then .ok (m.content.getD "") else attrContent m

/-- `_get_latest_user_question` (nodes.py lines 67-91): scan backward over
`messages[:-1]` (when `exclude_last`) or `messages`, return the content of
the first user message found; otherwise fall back to `messages[0].content`
(an attribute access, even for dict-style messages) or `""` for an empty
list. -/
def getLatestUserQuestion (messages : List Message) (exclude_last : Bool) :
    Except String String :=
  let search := if exclude_last then messages.dropLast else messages
  match search.reverse.find? Message.isUserMsg with
  | some m => msgContentForUser m
  | none =>
    match messages with
    | [] => .ok ""
    | m0 :: _ => attrContent m0

/-! ### `grade_documents` (nodes.py lines 199-269) -/

/-- Python string truthiness of an optional value. -/
def truthyOpt : Option String → Bool
  | some s => s != ""
  | none => false

/-- The counting predicate of nodes.py lines 215-220:
`(hasattr(msg, 'type') and msg.type == "tool") or
 (isinstance(msg, dict) and msg.get("type") == "tool") or
 (isinstance(msg, dict) and msg.get("name"))`. -/
def countedAsToolResponse (m : Message) : Bool :=
  (!m.isDict && m.type_ == some "tool") ||
    (m.isDict && m.type_ == some "tool") ||
    (m.isDict && truthyOpt m.name)

/-- A genuine tool-response message: `type == "tool"` in either style. -/
def isToolResponse (m : Message) : Bool :=
  m.type_ == some "tool"

/-- `messages[-6:] if len(messages) > 6 else messages` (nodes.py line
214). -/
def recentWindow (messages : List Message) : List Message :=
  if messages.length > 6 then messages.drop (messages.length - 6)
  else messages

/-- `grade_documents` (nodes.py lines 199-269).  The structured relevance
judgement the grader model would return is abstracted as `graderScore`
(its `binary_score` field); the question/context extraction feeding the
grader prompt does not influence the returned route.  Result: the route
(`"generate_answer"` / `"rewrite_question"`) paired with whether the
grader model was invoked at all. -/
def grade_documents (messages : List Message) (graderScore : String) :
    String × Bool :=
  let recent := recentWindow messages
  let tool_responses_in_recent := recent.countP countedAsToolResponse
  if tool_responses_in_recent ≥ 2 then ("generate_answer", false)
  else if graderScore == "yes" then ("generate_answer", true)
  else ("rewrite_question", true)

/-! ### The built graph (rag_graph.py lines 64-98) and the human approval
node (nodes.py lines 386-481) -/

/-- The nodes `build_rag_graph` adds to the `StateGraph`
(rag_graph.py lines 67-70); no other node is ever added. -/
def ragGraphNodes : List String :=
  ["generate_query_or_respond", "tools", "rewrite_question",
   "generate_answer"]

/-- LangGraph's `END` sentinel. -/
def ENDNode : String := "__end__"

/-- LangGraph's prebuilt `tools_condition` used by `build_rag_graph`
(rag_graph.py lines 76-83): route to `"tools"` iff the last message
declares tool calls, else `END`. -/
def tools_condition (messages : List Message) : String :=
  match messages.getLast? with
  | some m => if !m.tool_calls.isEmpty then "tools" else ENDNode
  | none => ENDNode

/-- The conditional-edge mapping `{"tools": "tools", END: END}` attached to
`generate_query_or_respond` (rag_graph.py lines 76-83). -/
def decideEdgeTarget (label : String) : String :=
  if label == "tools" then "tools" else ENDNode

/-- `SENSITIVE_TOOLS` (nodes.py lines 387-395). -/
def SENSITIVE_TOOLS : List String :=
  ["apply_for_leave", "approve_leave_for_employee",
   "cancel_leave_for_employee", "apply_attendance",
   "approve_attendance_for_employee", "cancel_attendance_for_employee",
   "apply_leave_for_employee"]

/-- The interrupt payload raised by the human approval node
(nodes.py lines 463-468); tool arguments are abstracted away, keeping the
tool names of `pending_actions`. -/
structure GateInterrupt where
  action : String
  message : String
  pending_actions : List String
  options : List String
  deriving Repr, DecidableEq

/-- The resume decision consumed by the human approval node
(nodes.py line 470): `decision.get("approved", False)` and
`decision.get("action")`. -/
structure ApprovalDecision where
  approved : Bool := false
  action : Option String := none
  deriving Repr, DecidableEq

/-- A LangGraph `Command(goto=..., update={"messages": ...})`. -/
structure GateCommand where
  goto : String
  update : List Message := []
  deriving Repr, DecidableEq

/-- The user-role message injected on rejection (nodes.py line 475). -/
def rejectInjectedMessage : Message :=
  { isDict := false, type_ := some "human",
    content := some "Please don't perform that action. Suggest alternatives instead." }

/-- The node produced by `create_human_approval_node` (nodes.py lines
398-481), with the default `SENSITIVE_TOOLS`.  `gateEnabled` is
`should_use_node_level_gate()`; when the node suspends, `decision` is the
resume value the `interrupt(...)` call returns.  Result: the interrupt
emitted (if any) and the command the node returns after resumption. -/
def human_approval_node (gateEnabled : Bool) (sensitive : List String)
    (messages : List Message) (decision : ApprovalDecision) :
    Option GateInterrupt × GateCommand :=
  if !gateEnabled then (none, ⟨"tools", []⟩)
  else
    match messages.getLast? with
    | none => (none, ⟨"tools", []⟩)
    | some last_message =>
      if last_message.tool_calls.isEmpty then (none, ⟨"tools", []⟩)
      else
        let pending_sensitive_tools := last_message.tool_calls.filterMap
          fun tc =>
            match tc.name with
            | some n => if n != "" && sensitive.contains n then some n
                        else none
            | none => none
        if pending_sensitive_tools.isEmpty then (none, ⟨"tools", []⟩)
        else
          let intr : GateInterrupt :=
            { action := "tool_approval"
              message := "The agent wants to perform the following actions. Do you approve?"
              pending_actions := pending_sensitive_tools
              options := ["approve", "reject"] }
          if !decision.approved && decision.action ≠ some "approve" then
            (some intr, ⟨"generate_query_or_respond",
                         [rejectInjectedMessage]⟩)
          else
            (some intr, ⟨"tools", []⟩)

/-- An assistant message whose single tool call names the sensitive tool
`apply_for_leave` — the state in which the spec requires routing through
the human gate. -/
def sensitiveLeaveCallMsg : Message :=
  { isDict := false, type_ := some "ai",
    tool_calls := [⟨true, some "call_1", some "apply_for_leave"⟩] }

/-! ### Agent sessions (app/models/agent_session.py, app/models/database.py) -/

/-- A row of the `agent_sessions` table (database.py lines 79-93). -/
structure SessionRecord where
  session_id : String
  employee_id : Int
  employee_name : String
  created_at : Int
  expires_at : Option Int
  deriving Repr, DecidableEq

/-- `AgentSession.is_expired` (database.py lines 95-107): `False` when
`expires_at` is `NULL`, else `now > expires_at` (time-zone normalization
is invisible with integer timestamps). -/
def SessionRecord.is_expired (now : Int) (r : SessionRecord) : Bool :=
  match r.expires_at with
  | none => false
  | some t => now > t

/-- The Pydantic context returned by `get_session`
(agent_session.py lines 14-32, 148-153). -/
structure AgentSessionContext where
  session_id : String
  employee_id : Int
  employee_name : String
  created_at : Int
  deriving Repr, DecidableEq

/-- Conversion of a row to the returned context
(agent_session.py lines 148-153). -/
def toContext (r : SessionRecord) : AgentSessionContext :=
  ⟨r.session_id, r.employee_id, r.employee_name, r.created_at⟩

/-- The `WHERE session_id == sid` filter. -/
def sidMatch (sid : String) (r : SessionRecord) : Bool :=
  r.session_id == sid

/-- In-place update of the first matching row
(`existing.employee_id = ...; db.commit()`). -/
def updateFirst (p : SessionRecord → Bool)
    (f : SessionRecord → SessionRecord) :
    List SessionRecord → List SessionRecord
  | [] => []
  | r :: rest => if p r then f r :: rest else r :: updateFirst p f rest

/-- `create_session` (agent_session.py lines 75-120): `expires_at` is set
only for `ttl_hours > 0` (`timedelta(hours=h)` = `h * 3600` seconds);
an existing row with the same `session_id` is updated in place, otherwise
a new row is appended.  Returns the created/updated record and the new
table state. -/
def create_session (db : List SessionRecord) (sid : String) (eid : Int)
    (ename : String) (ttl_hours : Int) (now : Int) :
    SessionRecord × List SessionRecord :=
  let expires_at : Option Int :=
    if ttl_hours > 0 then some (now + ttl_hours * 3600) else none
  match db.find? (sidMatch sid) with
  | some existing =>
    let upd := fun (r : SessionRecord) =>
      { r with employee_id := eid, employee_name := ename,
               expires_at := expires_at }
    (upd existing, updateFirst (sidMatch sid) upd db)
  | none =>
    let r : SessionRecord := ⟨sid, eid, ename, now, expires_at⟩
    (r, db ++ [r])

/-- `get_session` (agent_session.py lines 123-153): look up by
`session_id`; a missing row yields `None`; an expired row is deleted on
this read and yields `None`; otherwise the context is returned.  Returns
the result and the new table state. -/
def get_session (db : List SessionRecord) (sid : String) (now : Int) :
    Option AgentSessionContext × List SessionRecord :=
  match db.find? (sidMatch sid) with
  | none => (none, db)
  | some s =>
    if s.is_expired now then (none, db.eraseP (sidMatch sid))
    else (some (toContext s), db)

/-! ### Streaming orchestrator (chat_service.py lines 63-376)

The graph's `astream_events` iterator is modelled as a list of
`GraphEvent`s; an exception raised while setting up or iterating (model
call failure, corrupted checkpoint, ...) is modelled by `exn = some k`:
the iteration raises after `k` events were delivered (`k = 0` covers
failures before the first event).  Interrupt payloads are opaque
strings. -/

/-- One event from `graph.astream_events(..., version="v1")`:
`event_type` is `event`, `node_name` is `metadata["langgraph_node"]`
(`""` when absent), `output_interrupts` is `data["output"]["__interrupt__"]`
when that key exists, `data_interrupts` is `data["__interrupt__"]`, and
`chunk` is `data["chunk"].content` when a chunk with a content attribute
is present. -/
structure GraphEvent where
  event_type : String
  node_name : String
  output_interrupts : Option (List String) := none
  data_interrupts : Option (List String) := none
  chunk : Option String := none
  deriving Repr, DecidableEq

/-- The events yielded to the caller (schemas.py `StreamChunk`): `token`,
`interrupt`, `done`, `error`. -/
inductive OutEvent where
  | token (content : String) (thread_id : String)
  | interrupt (payload : String) (thread_id : String)
  | done (content : String) (thread_id : String)
  | error (content : String) (thread_id : String)
  deriving Repr, DecidableEq

/-- Terminal events per the spec: `done`, `interrupt`, `error`. -/
def OutEvent.isTerminal : OutEvent → Bool
  | .token _ _ => false
  | _ => true

def OutEvent.isToken : OutEvent → Bool
  | .token _ _ => true
  | _ => false

/-- Interrupt detection of `stream_chat` (chat_service.py lines 140-162):
only on `on_chain_end`, only from `data["output"]["__interrupt__"]`, and
only when that list is nonempty; the first payload is emitted. -/
def interruptPayloadChat (e : GraphEvent) : Option String :=
  if e.event_type == "on_chain_end" then
    match e.output_interrupts with
    | some (p :: _) => some p
    | _ => none
  else none

/-- Interrupt detection of `stream_resume` (chat_service.py lines
288-329): on `on_chain_end` or `on_tool_end`, from
`data["output"]["__interrupt__"]` first and `data["__interrupt__"]`
second. -/
def interruptPayloadResume (e : GraphEvent) : Option String :=
  if e.event_type == "on_chain_end" || e.event_type == "on_tool_end" then
    match e.output_interrupts with
    | some (p :: _) => some p
    | _ =>
      match e.data_interrupts with
      | some (p :: _) => some p
      | _ => none
  else none

/-- Token filtering (chat_service.py lines 164-187 and 331-353): an
`on_chat_model_stream` event with a truthy chunk content streams iff it
comes from `generate_query_or_respond` while not inside the tools node, or
from `generate_answer`. -/
def tokenContent (e : GraphEvent) (is_using_tools : Bool) : Option String :=
  if e.event_type == "on_chat_model_stream" then
    match e.chunk with
    | some c =>
      if c != "" &&
          ((e.node_name == "generate_query_or_respond" && !is_using_tools)
            || e.node_name == "generate_answer") then some c
      else none
    | none => none
  else none

/-- Update of the `is_using_tools` flag (chat_service.py lines 131-137):
set on `on_chain_start` of the tools node, cleared on its
`on_chain_end`. -/
def updateUsingTools (e : GraphEvent) (ut : Bool) : Bool :=
  let ut := if e.event_type == "on_chain_start" && e.node_name == "tools"
            then true else ut
  if e.event_type == "on_chain_end" && e.node_name == "tools" then false
  else ut

/-- The event loop of `ChatService.stream_chat` (chat_service.py lines
81-216): stream filtered tokens, stop at the first interrupt, emit `done`
after a completed iteration, and convert any exception into a single
`error` event (lines 196-216). -/
def streamChatAux (tid errMsg : String) (events : List GraphEvent)
    (exn : Option Nat) (full : String) (ut : Bool) : List OutEvent :=
  match exn with
  | some 0 => [.error errMsg tid]
  | _ =>
    match events with
    | [] => [.done full tid]
    | e :: rest =>
      let ut := updateUsingTools e ut
      match interruptPayloadChat e with
      | some p => [.interrupt p tid]
      | none =>
        let exn1 := exn.map (· - 1)
        match tokenContent e ut with
        | some c =>
          .token c tid :: streamChatAux tid errMsg rest exn1 (full ++ c) ut
        | none => streamChatAux tid errMsg rest exn1 full ut

/-- `ChatService.stream_chat` for one turn, after thread-id resolution. -/
def stream_chat (tid errMsg : String) (events : List GraphEvent)
    (exn : Option Nat) : List OutEvent :=
  streamChatAux tid errMsg events exn "" false

/-- The event loop of `ChatService.stream_resume` (chat_service.py lines
240-376), identical to `stream_chat` up to the broader interrupt
detection. -/
def streamResumeAux (tid errMsg : String) (events : List GraphEvent)
    (exn : Option Nat) (full : String) (ut : Bool) : List OutEvent :=
  match exn with
  | some 0 => [.error errMsg tid]
  | _ =>
    match events with
    | [] => [.done full tid]
    | e :: rest =>
      let ut := updateUsingTools e ut
      match interruptPayloadResume e with
      | some p => [.interrupt p tid]
      | none =>
        let exn1 := exn.map (· - 1)
        match tokenContent e ut with
        | some c =>
          .token c tid :: streamResumeAux tid errMsg rest exn1 (full ++ c) ut
        | none => streamResumeAux tid errMsg rest exn1 full ut

/-- `ChatService.stream_resume` for one turn. -/
def stream_resume (tid errMsg : String) (events : List GraphEvent)
    (exn : Option Nat) : List OutEvent :=
  streamResumeAux tid errMsg events exn "" false

/-- A well-formed turn output: every event before the last is a `token`,
and the stream ends with exactly one terminal event. -/
def wellTerminated (out : List OutEvent) : Prop :=
  out.dropLast.all OutEvent.isToken = true ∧
    ∃ e, out.getLast? = some e ∧ e.isTerminal = true

/-! ### Actor-scoped retrieval (chat_service.py lines 21-61) -/

/-- A vector-store chunk; `owner` is the `user_id` of the owning
document's user, `sim` below abstracts cosine similarity against a
query. -/
structure Chunk where
  owner : Option Int
  text : String
  deriving Repr, DecidableEq

/-- Modelled from the spec: `app/services/vector_store_service.py` is not
among the provided sources (only its caller
`ChatService.get_graph_for_user` is).  Per spec §4.4, retrieval "must
filter candidates to only those chunks owned by `actor_scope` before
ranking by similarity; k defaults to 5".  Candidates are filtered to the
actor's chunks, ranked by descending similarity, and the top `k` are
returned. -/
def get_retriever (chunks : List Chunk) (user_id : Option Int) (k : Nat)
    (sim : Chunk → String → Int) (query : String) : List Chunk :=
  (((chunks.filter fun c => c.owner == user_id).insertionSort
      fun a b => sim b query ≤ sim a query)).take k

/-- The retriever `ChatService.get_graph_for_user` builds (chat_service.py
lines 39-43): similarity search scoped to `user_id` with
`search_kwargs={"k": 5}`. -/
def retrieverForUser (chunks : List Chunk) (user_id : Option Int)
    (sim : Chunk → String → Int) : String → List Chunk :=
  fun query => get_retriever chunks user_id 5 sim query

/-! ### The leave-application tool (app/workflows/tools/leave_apply.py)

The Python `datetime` library is modelled concretely: `strptime` for each
of the eleven formats `_format_datetime` tries (and for the bare
`"%Y-%m-%d"` parse on line 202), with the calendar validation `datetime`
performs (month lengths, leap years, `MINYEAR = 1`); whitespace in a
format matches a nonempty whitespace run and month names are
case-insensitive, as in CPython's `_strptime`.  Date arithmetic is the
standard civil-from-days conversion, and `dt + timedelta(days=n)` is
bounded exactly as in Python: `timedelta` rejects a day magnitude above
999999999 and the sum must stay inside `datetime`'s year range 1-9999,
both raising `OverflowError`. -/

structure PyDate where
  year : Int
  month : Int
  day : Int
  deriving Repr, DecidableEq

def isLeap (y : Int) : Bool :=
  (y % 4 == 0 && y % 100 != 0) || y % 400 == 0

def monthLen (y m : Int) : Int :=
  if m == 2 then (if isLeap y then 29 else 28)
  else if m == 4 || m == 6 || m == 9 || m == 11 then 30
  else 31

/-- A numeric `strptime` field: a run of digits whose length lies in
`[lo, hi]` (`%Y` is `\d{1,4}`, `%m`/`%d`/`%H`/`%M`/`%S` are `\d{1,2}`;
every format below follows a digit field with a non-digit, so taking the
whole run is equivalent to the backtracking regex). -/
def numField (lo hi : Nat) (cs : List Char) : Option (Nat × List Char) :=
  let ds := cs.takeWhile Char.isDigit
  let rest := cs.dropWhile Char.isDigit
  if lo ≤ ds.length ∧ ds.length ≤ hi then
    (String.mk ds).toNat?.map fun n => (n, rest)
  else none

/-- A literal character of the format. -/
def litChar (c : Char) : List Char → Option (List Char)
  | x :: rest => if x == c then some rest else none
  | [] => none

/-- Whitespace in a `strptime` format matches `\s+`. -/
def skipWs1 (cs : List Char) : Option (List Char) :=
  match cs with
  | x :: rest => if x.isWhitespace then some (rest.dropWhile Char.isWhitespace) else none
  | [] => none

def monthNamesFull : List String :=
  ["january", "february", "march", "april", "may", "june", "july",
   "august", "september", "october", "november", "december"]

def monthNamesAbbr : List String :=
  ["jan", "feb", "mar", "apr", "may", "jun", "jul", "aug", "sep", "oct",
   "nov", "dec"]

/-- `%B` / `%b`: a run of letters naming a month, case-insensitively. -/
def monthField (abbr : Bool) (cs : List Char) : Option (Nat × List Char) :=
  let ls := cs.takeWhile Char.isAlpha
  let rest := cs.dropWhile Char.isAlpha
  let names := if abbr then monthNamesAbbr else monthNamesFull
  (names.findIdx? (· == (String.mk ls).toLower)).map fun i => (i + 1, rest)

/-- The calendar check `datetime(year, month, day)` performs
(`MINYEAR = 1`; a parsed year is exactly 4 digits, hence `≤ 9999`). -/
def validYmd (y m d : Nat) : Bool :=
  1 ≤ y && 1 ≤ m && m ≤ 12 && 1 ≤ d && (d : Int) ≤ monthLen (y : Int) (m : Int)

def mkDate (y m d : Nat) : Option PyDate :=
  if validYmd y m d then some ⟨y, m, d⟩ else none

/-- `strptime(s, "%Y<sep>%m<sep>%d")` — `"%Y-%m-%d"` with `sep := '-'`,
`"%Y/%m/%d"` with `sep := '/'`. -/
def parseYmdSep (sep : Char) (s : String) : Option PyDate := do
  let cs := s.toList
  let (y, cs) ← numField 4 4 cs
  let cs ← litChar sep cs
  let (m, cs) ← numField 1 2 cs
  let cs ← litChar sep cs
  let (d, cs) ← numField 1 2 cs
  if cs.isEmpty then mkDate y m d else none

/-- `strptime(s, "%d<sep>%m<sep>%Y")`. -/
def parseDmySep (sep : Char) (s : String) : Option PyDate := do
  let cs := s.toList
  let (d, cs) ← numField 1 2 cs
  let cs ← litChar sep cs
  let (m, cs) ← numField 1 2 cs
  let cs ← litChar sep cs
  let (y, cs) ← numField 4 4 cs
  if cs.isEmpty then mkDate y m d else none

/-- `strptime(s, "%B %d, %Y")` (full names) / `"%b %d, %Y"`
(abbreviated). -/
def parseMonthDayYear (abbr : Bool) (s : String) : Option PyDate := do
  let cs := s.toList
  let (m, cs) ← monthField abbr cs
  let cs ← skipWs1 cs
  let (d, cs) ← numField 1 2 cs
  let cs ← litChar ',' cs
  let cs ← skipWs1 cs
  let (y, cs) ← numField 4 4 cs
  if cs.isEmpty then mkDate y m d else none

/-- `strptime(s, "%Y-%m-%dT%H:%M:%S")`; the time fields are validated
(the `datetime` constructor rejects hour 24 and second 60) and
discarded. -/
def parseYmdT (s : String) : Option PyDate := do
  let cs := s.toList
  let (y, cs) ← numField 4 4 cs
  let cs ← litChar '-' cs
  let (m, cs) ← numField 1 2 cs
  let cs ← litChar '-' cs
  let (d, cs) ← numField 1 2 cs
  let cs ← litChar 'T' cs
  let (hh, cs) ← numField 1 2 cs
  let cs ← litChar ':' cs
  let (mm, cs) ← numField 1 2 cs
  let cs ← litChar ':' cs
  let (ss, cs) ← numField 1 2 cs
  if cs.isEmpty ∧ hh ≤ 23 ∧ mm ≤ 59 ∧ ss ≤ 59 then mkDate y m d else none

/-- `strptime(s, "%B %d")` / `"%b %d"`: year defaults to 1900 (so
`"February 29"` is rejected — 1900 is not a leap year). -/
def parseMonthDay (abbr : Bool) (s : String) : Option PyDate := do
  let cs := s.toList
  let (m, cs) ← monthField abbr cs
  let cs ← skipWs1 cs
  let (d, cs) ← numField 1 2 cs
  if cs.isEmpty then mkDate 1900 m d else none

/-- `strptime(s, "%m<sep>%d")` — year defaults to 1900. -/
def parseMdSep (sep : Char) (s : String) : Option PyDate := do
  let cs := s.toList
  let (m, cs) ← numField 1 2 cs
  let cs ← litChar sep cs
  let (d, cs) ← numField 1 2 cs
  if cs.isEmpty then mkDate 1900 m d else none

/-- `datetime.strptime(s, "%Y-%m-%d")` — the bare parse of
leave_apply.py line 202 and of `_generate_leave_days_json`. -/
def parseYMD (s : String) : Option PyDate :=
  parseYmdSep '-' s

/-- `formats_with_year` (leave_apply.py lines 102-105), in source
order. -/
def formatsWithYear : List (String → Option PyDate) :=
  [parseYmdSep '-', parseYmdSep '/', parseDmySep '-', parseDmySep '/',
   parseMonthDayYear false, parseMonthDayYear true, parseYmdT]

/-- `formats_without_year` (leave_apply.py line 116), in source order. -/
def formatsNoYear : List (String → Option PyDate) :=
  [parseMonthDay false, parseMonthDay true, parseMdSep '-', parseMdSep '/']

def pad2 (n : Int) : String :=
  if n < 10 then "0" ++ toString n else toString n

def pad4 (n : Int) : String :=
  if n < 10 then "000" ++ toString n
  else if n < 100 then "00" ++ toString n
  else if n < 1000 then "0" ++ toString n
  else toString n

/-- `dt.strftime("%Y-%m-%d")`. -/
def strftimeYMD (d : PyDate) : String :=
  pad4 d.year ++ "-" ++ pad2 d.month ++ "-" ++ pad2 d.day

/-- The first loop of `_format_datetime` (leave_apply.py lines 107-114):
try each format; on success, bump a past year to the current year — a
`replace` that lands on Feb 29 of a non-leap year raises `ValueError`
inside the per-format `try` and moves on to the next format — and
re-render. -/
def tryFormatsWithYear (currentYear : Int) :
    List (String → Option PyDate) → String → Option String
  | [], _ => none
  | f :: rest, s =>
    match f s with
    | some dt =>
      if dt.year < currentYear then
        if dt.month = 2 ∧ dt.day = 29 ∧ ¬(isLeap currentYear = true) then
          tryFormatsWithYear currentYear rest s
        else some (strftimeYMD { dt with year := currentYear })
      else some (strftimeYMD dt)
    | none => tryFormatsWithYear currentYear rest s

/-- The second loop of `_format_datetime` (leave_apply.py lines 118-124):
the year (1900 from the year-less parse) is replaced unconditionally; the
`replace` cannot raise because Feb 29 was already rejected at 1900. -/
def tryFormatsNoYear (currentYear : Int) :
    List (String → Option PyDate) → String → Option String
  | [], _ => none
  | f :: rest, s =>
    match f s with
    | some dt =>
      if dt.month = 2 ∧ dt.day = 29 ∧ ¬(isLeap currentYear = true) then
        tryFormatsNoYear currentYear rest s
      else some (strftimeYMD { dt with year := currentYear })
    | none => tryFormatsNoYear currentYear rest s

/-- `_format_datetime` (leave_apply.py lines 98-126): try the seven
with-year formats, then the four year-less ones; a string matching no
format is returned unchanged. -/
def format_datetime (currentYear : Int) (date_str : String) : String :=
  match tryFormatsWithYear currentYear formatsWithYear date_str with
  | some out => out
  | none =>
    match tryFormatsNoYear currentYear formatsNoYear date_str with
    | some out => out
    | none => date_str

/-- Days since 1970-01-01 of a civil date (Hinnant's algorithm; divisions
are truncating as in the reference formulation). -/
def daysFromCivil (dt : PyDate) : Int :=
  let y := if dt.month ≤ 2 then dt.year - 1 else dt.year
  let era := Int.tdiv (if y ≥ 0 then y else y - 399) 400
  let yoe := y - era * 400
  let mp := (dt.month + 9) % 12
  let doy := Int.tdiv (153 * mp + 2) 5 + dt.day - 1
  let doe := yoe * 365 + Int.tdiv yoe 4 - Int.tdiv yoe 100 + doy
  era * 146097 + doe - 719468

/-- Civil date from days since 1970-01-01 (inverse of `daysFromCivil`). -/
def civilFromDays (days : Int) : PyDate :=
  let z := days + 719468
  let era := Int.tdiv (if z ≥ 0 then z else z - 146096) 146097
  let doe := z - era * 146097
  let yoe := Int.tdiv (doe - Int.tdiv doe 1460 + Int.tdiv doe 36524
      - Int.tdiv doe 146096) 365
  let y := yoe + era * 400
  let doy := doe - (365 * yoe + Int.tdiv yoe 4 - Int.tdiv yoe 100)
  let mp := Int.tdiv (5 * doy + 2) 153
  let d := doy - Int.tdiv (153 * mp + 2) 5 + 1
  let m := if mp < 10 then mp + 3 else mp - 9
  ⟨if m ≤ 2 then y + 1 else y, m, d⟩

/-- `timedelta(days=n)` rejects `|n| > 999999999` with `OverflowError`. -/
def MAXDELTADAYS : Int := 999999999

/-- `datetime.min` = 0001-01-01 as days since the 1970 epoch. -/
def minOrdinal : Int := daysFromCivil ⟨1, 1, 1⟩

/-- `datetime.max` ends on 9999-12-31. -/
def maxOrdinal : Int := daysFromCivil ⟨9999, 12, 31⟩

/-- `dt + timedelta(days=n)`: constructing the `timedelta` raises
`OverflowError` for a day magnitude above 999999999, and the addition
raises `OverflowError` when the result leaves `datetime`'s year range
1-9999. -/
def addDaysChecked (d : PyDate) (n : Int) : Except String PyDate :=
  if n < -MAXDELTADAYS ∨ MAXDELTADAYS < n then .error "OverflowError"
  else
    let z := daysFromCivil d + n
    if z < minOrdinal ∨ maxOrdinal < z then .error "OverflowError"
    else .ok (civilFromDays z)

/-- `dt.strftime("%A")`; 1970-01-01 was a Thursday. -/
def weekdayName (days : Int) : String :=
  (["Thursday", "Friday", "Saturday", "Sunday", "Monday", "Tuesday",
    "Wednesday"]).getD (days % 7).toNat "Thursday"

/-- `_generate_leave_days_json` (leave_apply.py lines 129-145): `SL`,
`Date` and `DayName` of each requested day (the fixed shift fields are
omitted); `range(int(total_days))` is empty for a nonpositive count.  The
`strptime` and each `start_dt + timedelta(days=i)` inside can raise. -/
def generate_leave_days_json (from_date : String) (total_days : Int) :
    Except String (List (Nat × String × String)) :=
  match parseYMD from_date with
  | none => .error "ValueError"
  | some start_dt =>
    (List.range total_days.toNat).mapM fun (i : Nat) => do
      let d ← addDaysChecked start_dt (i : Int)
      pure (i + 1, strftimeYMD d, weekdayName (daysFromCivil d))

/-! JSON values and the Python-ism helpers the tool uses. -/

inductive JVal where
  | null
  | jbool (b : Bool)
  | num (q : Rat)
  | str (s : String)
  | arr (xs : List JVal)
  | obj (fields : List (String × JVal))

/-- Python truthiness of a JSON value. -/
def truthyJ : JVal → Bool
  | .null => false
  | .jbool b => b
  | .num q => decide (q ≠ 0)
  | .str s => s != ""
  | .arr xs => !xs.isEmpty
  | .obj f => !f.isEmpty

/-- `d.get(k)` on a value known to be a dict (`none` = key absent). -/
def jGet : JVal → String → Option JVal
  | .obj fields, k => (fields.find? fun kv => kv.1 == k).map (·.2)
  | _, _ => none

/-- `v.get(k)` in general: raises `AttributeError` on a non-dict. -/
def pyGet (v : JVal) (k : String) : Except String (Option JVal) :=
  match v with
  | .obj _ => .ok (jGet v k)
  | _ => .error "AttributeError"

/-- Python `x or y` for optional JSON values (`None` and falsy values both
select `y`). -/
def pyOr (a b : Option JVal) : Option JVal :=
  match a with
  | some v => if truthyJ v then some v else b
  | none => b

def pyTruthyOptJ (o : Option JVal) : Bool :=
  match o with
  | some v => truthyJ v
  | none => false

/-- `float(x)`: exact for numbers and booleans, string parsing abstracted
by `fp`; `none` models the `ValueError`/`TypeError` the caller catches. -/
def pyFloatJ (fp : String → Option Rat) : JVal → Option Rat
  | .num q => some q
  | .str s => fp s
  | .jbool b => some (if b then 1 else 0)
  | _ => none

/-- Approximate f-string rendering of a JSON value (only the text of
string values matters to any theorem below). -/
def jRender : JVal → String
  | .null => "None"
  | .jbool b => if b then "True" else "False"
  | .num q => toString q
  | .str s => s
  | .arr _ => "[...]"
  | .obj _ => "{...}"

def jRenderOpt (o : Option JVal) : String :=
  match o with
  | some v => jRender v
  | none => "None"

def stripBy (p : Char → Bool) (s : String) : String :=
  String.mk (((s.toList.dropWhile p).reverse.dropWhile p).reverse)

/-- `s.strip()`. -/
def pyStrip (s : String) : String := stripBy Char.isWhitespace s

/-! The HTTP world: one outcome per endpoint the tool talks to.  `exn`
models a raised `httpx` error (timeout, network failure); `resp` carries
the status code, the body text and, when `.json()` would succeed, the
parsed body.  `floatParse`/`jsonLoads` abstract `float()` on strings and
`json.loads`. -/

inductive CallOutcome where
  | exn (msg : String)
  | resp (status : Nat) (text : String) (json : Option JVal)

/-- A request issued by the tool: the endpoint and the `timeout=` argument
passed to `httpx` (in seconds). -/
structure HttpReq where
  endpoint : String
  timeout : Int
  deriving Repr, DecidableEq

/-- Every `httpx` call in leave_apply.py passes `timeout=30.0`. -/
def hrmsReq (endpoint : String) : HttpReq := ⟨endpoint, 30⟩

structure HrmsWorld where
  encryptResp : String → CallOutcome
  loginResp : CallOutcome
  balanceResp : CallOutcome
  periodResp : CallOutcome
  typesResp : CallOutcome
  mobileResp : CallOutcome
  addressResp : CallOutcome
  daysResp : CallOutcome
  submitResp : CallOutcome
  floatParse : String → Option Rat
  jsonLoads : String → Option JVal

def HRMS_USERNAME : String := "demo_admin"
def HRMS_PASSWORD : String := "Demo@2024"
def DEFAULT_EMPLOYEE_ID : Int := 335
def DEFAULT_LEAVE_TYPE_ID : Int := 2

/-- `_encrypt_value` (leave_apply.py lines 37-55): POST `/encrypt` with a
30s timeout; 200 yields `text.strip().strip('"')`, anything else
(including a raised exception) yields `None`. -/
def encrypt_value (w : HrmsWorld) (v : String) :
    Option String × List HttpReq :=
  let tr := [hrmsReq "POST /encrypt"]
  match w.encryptResp v with
  | .exn _ => (none, tr)
  | .resp st text _ =>
    if st == 200 then (some (stripBy (· == '"') (pyStrip text)), tr)
    else (none, tr)

/-- `_get_hrms_token` (leave_apply.py lines 58-95): encrypt both
credentials, POST the login, extract
`token or access_token or accessToken`; every failure path yields
`None`. -/
def get_hrms_token (w : HrmsWorld) : Option JVal × List HttpReq :=
  let (eu, t1) := encrypt_value w HRMS_USERNAME
  let (ep, t2) := encrypt_value w HRMS_PASSWORD
  let tr := t1 ++ t2
  if !truthyOpt eu || !truthyOpt ep then (none, tr)
  else
    let tr := tr ++ [hrmsReq "POST /api/ControlPanel/Access/login"]
    match w.loginResp with
    | .exn _ => (none, tr)
    | .resp st _ js =>
      if st == 200 then
        match js with
        | none => (none, tr)
        | some j =>
          match pyGet j "token" with
          | .error _ => (none, tr)
          | .ok a =>
            let token := pyOr a (pyOr (jGet j "access_token")
              (jGet j "accessToken"))
            match token with
            | some v => if truthyJ v then (some v, tr) else (none, tr)
            | none => (none, tr)
      else (none, tr)

/-- Any exception inside the tool's big `try` is converted into this
textual result (leave_apply.py lines 483-487). -/
def caughtLeave (m : String) : Except String (Option String) :=
  .ok (some ("❌ Error during leave application: " ++ m))

/-- One HTTP step inside the big `try`: issue the request (always with the
30s timeout); a raised exception is caught and converted, a response is
passed on. -/
def hrmsStep (tr : List HttpReq) (endpoint : String) (outcome : CallOutcome)
    (k : Nat → String → Option JVal → List HttpReq →
      Except String (Option String) × List HttpReq) :
    Except String (Option String) × List HttpReq :=
  let tr := tr ++ [hrmsReq endpoint]
  match outcome with
  | .exn m => (caughtLeave m, tr)
  | .resp st text js => k st text js tr

/-- The shared extraction shape of the mobile-number (lines 277-294) and
address (lines 312-329) steps: on a 200, prefer the stripped plain text
when it passes the length sanity check, else fall back to the JSON
`value`/`altKey` fields; every failure (non-200, unparseable JSON,
non-dict JSON) yields `None`. -/
def extractPlainValue (st : Nat) (text : String) (js : Option JVal)
    (minLen : Nat) (altKey : String) : Option JVal :=
  if st == 200 then
    let t := stripBy (· == '\'') (stripBy (· == '"') (pyStrip text))
    if t != "" && t.length > minLen then some (.str t)
    else
      match js with
      | some j =>
        match pyGet j "value" with
        | .error _ => none
        | .ok a => pyOr a (jGet j altKey)
      | none => none
  else none

/-- The per-day loop of the total-request-days check (leave_apply.py lines
377-389); `none` models an exception raised mid-loop (non-dict entry, or
the `"Holiday" in remark` test on a non-string remark), which the
surrounding `try` turns into a warning, discarding the flags. -/
def processDays : List JVal → Option (Bool × Bool × Bool)
  | [] => some (false, false, false)
  | it :: rest =>
    match it with
    | .obj _ =>
      let remark := (jGet it "Remarks").getD (.str "")
      match remark with
      | .str s =>
        match processDays rest with
        | none => none
        | some (ap, we, ho) =>
          if s == "Already Applied" then some (true, we, ho)
          else if s == "Weekend" then some (ap, true, ho)
          else if s == "Holiday" || (s.splitOn "Holiday").length > 1 then
            some (ap, we, true)
          else some (ap, we, ho)
      | _ => none
    | _ => none

/-- `for day_info in list_data` over a non-list: iterating a string or a
dict yields items on which `.get` raises unless the container is empty;
other values are not iterable at all. -/
def iterateDayInfos : JVal → Option (Bool × Bool × Bool)
  | .arr items => processDays items
  | .str s => if s == "" then some (false, false, false) else none
  | .obj [] => some (false, false, false)
  | _ => none

/-- `list_data = json_lib.loads(leave_list) if isinstance(leave_list, str)
else leave_list` (leave_apply.py line 372). -/
def pyLoadsIfStr (w : HrmsWorld) : JVal → Option JVal
  | .str s => w.jsonLoads s
  | v => some v

/-- The abort decision of the total-request-days step (leave_apply.py
lines 352-402): `some msg` iff every parse step succeeded, every day is
flagged "Already Applied", the API's working-day count is zero and no
weekend/holiday was seen; every parse failure is caught, printed and
ignored. -/
def daysAbortCheck (w : HrmsWorld) (st : Nat) (js : Option JVal) :
    Option String :=
  if st == 200 then
    match js with
    | none => none
    | some j =>
      match pyGet j "leaveCount" with
      | .error _ => none
      | .ok a =>
        let lcs := pyOr a (jGet j "value")
        let api_leave_count : Rat :=
          match lcs with
          | some v =>
            if truthyJ v then (pyFloatJ w.floatParse v).getD 0 else 0
          | none => 0
        match jGet j "list" with
        | some ll =>
          if truthyJ ll then
            match pyLoadsIfStr w ll with
            | none => none
            | some ld =>
              match iterateDayInfos ld with
              | none => none
              | some (ap, we, ho) =>
                if ap && decide (api_leave_count = 0) && !we && !ho then
                  some "❌ Cannot apply leave: Leave has already been applied for the selected dates."
                else none
          else none
        | none => none
  else none

/-- The final-submission handler (leave_apply.py lines 457-481): a 200
with a truthy parsed `status` yields the success text; a 200 whose body
parses but has no truthy `status` falls off the end of the function
(Python returns `None`); a non-200 yields the HTTP error text; JSON
failures raise into the big `try`. -/
def submitHandler (from_date to_date : String) (total_days : Int)
    (reason : String) (phone addr : Option JVal) (sst : Nat)
    (stext : String) (sjs : Option JVal) (tr : List HttpReq) :
    Except String (Option String) × List HttpReq :=
  if sst == 200 then
    let result := if stext != "" then sjs else some (.obj [])
    match result with
    | none => (caughtLeave "JSONDecodeError", tr)
    | some j =>
      match pyGet j "status" with
      | .error m => (caughtLeave m, tr)
      | .ok sv =>
        let status := sv.getD (.jbool false)
        let msgv := (jGet j "msg").getD (.str "")
        if truthyJ status then
          let success :=
            "✅ Leave application submitted successfully!\n📅 Period: "
              ++ from_date ++ " to " ++ to_date ++ " ("
              ++ toString total_days ++ " days)\n📝 Reason: " ++ reason
              ++ "\n📱 Contact: " ++ jRenderOpt phone ++ "\n🏠 Address: "
              ++ jRenderOpt addr
          let success :=
            if truthyJ msgv then success ++ "\n💬 Message: " ++ jRender msgv
            else success
          (.ok (some success), tr)
        else (.ok none, tr)
  else (.ok (some ("❌ HTTP " ++ toString sst ++ ": " ++ stext)), tr)

/-- The body of the big `try` of `apply_for_leave` (leave_apply.py lines
220-487): the six preparatory endpoint calls, the already-applied abort,
the leave-days generation and the final submission. -/
def applyLeaveTry (w : HrmsWorld) (employee_id : Int)
    (from_date to_date : String) (total_days : Int) (reason : String)
    (tr0 : List HttpReq) : Except String (Option String) × List HttpReq :=
  hrmsStep tr0 "GET /api/HRMS/Leave/EmployeeLeaveBalance/GetLeaveBalance"
      w.balanceResp fun _ _ _ tr =>
  hrmsStep tr "GET /api/HRMS/Leave/LeaveSetting/GetLeavePeriod"
      w.periodResp fun _ _ _ tr =>
  hrmsStep tr
      "GET /api/HRMS/Leave/EmployeeLeaveBalance/GetEmployeeLeaveBalancesDropdown"
      w.typesResp fun _ _ _ tr =>
  hrmsStep tr
      "GET /api/HRMS/Employee/Info/GetEmployeePersonalMobileNumberByEmployeeId"
      w.mobileResp fun mst mtext mjs tr =>
    let phone := extractPlainValue mst mtext mjs 5 "mobileNumber"
    if !pyTruthyOptJ phone then
      (.ok (some ("❌ Failed to fetch mobile number for employee "
        ++ toString employee_id ++ ". API returned status "
        ++ toString mst ++ ".")), tr)
    else
      hrmsStep tr
          "GET /api/HRMS/Employee/Info/GetEmployeePresentAddressByEmployeeId"
          w.addressResp fun ast atext ajs tr =>
        let addr := extractPlainValue ast atext ajs 3 "address"
        if !pyTruthyOptJ addr then
          (.ok (some ("❌ Failed to fetch address for employee "
            ++ toString employee_id ++ ". API returned status "
            ++ toString ast ++ ".")), tr)
        else
          hrmsStep tr "GET /api/HRMS/Leave/LeaveSetting/GetTotalRequestDays"
              w.daysResp fun dst _ djs tr =>
            match daysAbortCheck w dst djs with
            | some abortMsg => (.ok (some abortMsg), tr)
            | none =>
              match generate_leave_days_json from_date total_days with
              | .error m => (caughtLeave m, tr)
              | .ok _ =>
                hrmsStep tr
                    "POST /api/HRMS/Leave/LeaveRequest/SaveEmployeeLeaveRequest3"
                    w.submitResp
                    (submitHandler from_date to_date total_days reason
                      phone addr)

/-- `apply_for_leave` (leave_apply.py lines 148-487).  Result: the trace
of issued HTTP requests paired with an `Except`: `.error` is an exception
raised to the caller — the bare `strptime` on line 202 and the
`from_dt + timedelta(days=total_days - 1)` on line 203 both sit outside
every `try` — `.ok none` the implicit Python `None` return, `.ok (some
s)` the returned string. -/
def apply_for_leave (w : HrmsWorld) (currentYear : Int)
    (ctxEmployeeId : Option Int) (start_date : String) (total_days : Int)
    (reason : String) (employee_id : Option Int := none)
    (leave_type_id : Option Int := none)
    (day_leave_type : Option String := none)
    (half_day_type : Option String := none) :
    Except String (Option String) × List HttpReq :=
  let employee_id :=
    match employee_id with
    | some e => e
    | none =>
      match ctxEmployeeId with
      | some e => e
      | none => DEFAULT_EMPLOYEE_ID
  let _leave_type_id := leave_type_id.getD DEFAULT_LEAVE_TYPE_ID
  let dlt0 := day_leave_type.getD "Full-Day"
  let _hd : String × Option String :=
    if ["half", "half-day", "half day"].contains dlt0.toLower then
      ("Half-Day", some (half_day_type.getD "First-Half"))
    else ("Full-Day", none)
  let from_date := format_datetime currentYear start_date
  match parseYMD from_date with
  | none => (.error "ValueError", [])
  | some from_dt =>
    match addDaysChecked from_dt (total_days - 1) with
    | .error e => (.error e, [])
    | .ok to_dt =>
      let to_date := strftimeYMD to_dt
      let (token, tr0) := get_hrms_token w
      match token with
      | none =>
        (.ok (some "❌ Failed to authenticate with HRMS system."), tr0)
      | some _ =>
        applyLeaveTry w employee_id from_date to_date total_days reason tr0

/-- A trace all of whose requests carry the 30 second timeout. -/
def goodTrace (l : List HttpReq) : Prop :=
  ∀ r ∈ l, r.timeout = 30

/-- Spec-side reading of "a tool-response message for this call id appears
later in the sequence before the next user message" (the window closes
after the message that opens the next user turn, mirroring the source's
break placement). -/
def respondsTo (tid : String) : List Message → Bool
  | [] => false
  | m :: rest =>
    let here := m.isTool && m.tool_call_id == some tid && tid != ""
    if m.isUserBreak then here else here || respondsTo tid rest

/-- Spec-side reading of the claim's check: every declared tool-call id of
`m` has a matching tool response in `rest` before the next user message. -/
def declaredMatched (m : Message) (rest : List Message) : Bool :=
  (extractIds m.tool_calls).all fun tid => respondsTo tid rest

/-! ### Concrete inputs used to evaluate the definitions -/

/-- An assistant message declaring two tool calls (the Scenario-D shape of
a checkpoint truncated mid-tool-cycle). -/
def cWitAiMsg : Message :=
  { isDict := false, type_ := some "ai",
    tool_calls := [⟨true, some "1", some "t"⟩, ⟨true, some "2", some "t"⟩] }

/-- A tool response for call id `"1"` only. -/
def cWitToolMsg : Message :=
  { isDict := false, type_ := some "tool", tool_call_id := some "1" }

/-- A plain LangChain tool response. -/
def cWitToolResponse : Message :=
  { isDict := false, type_ := some "tool" }

def cWitUserMsg : Message :=
  { isDict := false, type_ := some "human",
    content := some "latest question" }

def cWitAssistantMsg : Message :=
  { isDict := false, type_ := some "ai", content := some "hello there" }

def cWitTrailingTool : Message :=
  { isDict := false, type_ := some "tool", content := some "ctx",
    tool_call_id := some "1" }

/-- A dict-style assistant message: the `messages[0].content` fallback of
`_get_latest_user_question` is an attribute access and raises on it. -/
def dictAssistantMsg : Message :=
  { isDict := true, role := some "assistant", content := some "hello" }

def simZero : Chunk → String → Int := fun _ _ => 0

/-- An HTTP world in which everything succeeds until the final
submission, which answers HTTP 200 with a JSON body whose `status` is
`false`. -/
def W7none : HrmsWorld :=
  { encryptResp := fun _ => .resp 200 "\"enc\"" none
    loginResp := .resp 200 "{}" (some (.obj [("token", .str "tok")]))
    balanceResp := .resp 200 "" none
    periodResp := .resp 200 "" none
    typesResp := .resp 200 "" none
    mobileResp := .resp 200 "01711112222" none
    addressResp := .resp 200 "House 1, Dhaka" none
    daysResp := .resp 404 "" none
    submitResp := .resp 200 "x" (some (.obj [("status", .jbool false)]))
    floatParse := fun _ => none
    jsonLoads := fun _ => none }

/-- An HTTP world in which the login request times out. -/
def W7fail : HrmsWorld := { W7none with loginResp := .exn "ReadTimeout" }

def exceptIsOk : Except String (Option String) → Bool
  | .ok _ => true
  | .error _ => false

theorem mem_responseHit (ids : List String) (m : Message) (tid : String)
    (hid : tid ∈ ids) :
    tid ∈ responseHit ids m ↔
      (m.isTool && m.tool_call_id == some tid && tid != "") = true := by
  unfold responseHit
  simp only [Bool.and_eq_true, beq_iff_eq, bne_iff_ne, ne_eq]
  by_cases ht : m.isTool = true
  · simp only [ht, if_pos, true_and]
    cases hc : m.tool_call_id with
    | none => simp
    | some t =>
      dsimp only
      by_cases he : t = tid
      · subst he
        by_cases hne : t = ""
        · simp [hne]
        · simp [hne, hid]
      · split_ifs with h
        · simp only [List.mem_singleton, Option.some.injEq]
          constructor
          · exact fun h' => absurd h'.symm he
          · exact fun h' => absurd h'.1 he
        · simp only [List.not_mem_nil, false_iff, not_and, Option.some.injEq]
          exact fun h' => (he h').elim
  · simp only [Bool.not_eq_true] at ht
    simp [ht]

theorem mem_foundResponses (ids : List String) (rest : List Message)
    (tid : String) (hid : tid ∈ ids) :
    tid ∈ foundResponses ids rest ↔ respondsTo tid rest = true := by
  induction rest with
  | nil => simp [foundResponses, respondsTo]
  | cons m rest ih =>
    unfold foundResponses respondsTo
    by_cases hb : m.isUserBreak = true
    · simp only [hb, if_pos]
      exact mem_responseHit ids m tid hid
    · simp only [Bool.not_eq_true] at hb
      simp only [hb, Bool.false_eq_true, if_neg, not_false_iff,
        List.mem_append, Bool.or_eq_true]
      rw [mem_responseHit ids m tid hid, ih]

theorem keepIncompleteCheck_iff (m : Message) (rest : List Message) :
    keepIncompleteCheck m rest = true ↔
      (extractIds m.tool_calls ≠ [] ∧ declaredMatched m rest = true) := by
  unfold keepIncompleteCheck declaredMatched
  simp only [Bool.and_eq_true, List.all_eq_true, decide_eq_true_eq,
    Bool.not_eq_true', List.isEmpty_eq_false_iff_exists_mem]
  constructor
  · rintro ⟨h1, h2⟩
    refine ⟨?_, fun tid hm => (mem_foundResponses _ _ _ hm).mp (h2 tid hm)⟩
    obtain ⟨x, hx⟩ := h1
    exact fun hnil => by simp [hnil] at hx
  · rintro ⟨h1, h2⟩
    refine ⟨?_, fun tid hm => (mem_foundResponses _ _ _ hm).mpr (h2 tid hm)⟩
    cases h : extractIds m.tool_calls with
    | nil => exact absurd h h1
    | cons a l => exact ⟨a, by simp [h]⟩

theorem find?_append_none {α} {p : α → Bool} {l₁ : List α} (l₂ : List α)
    (h : l₁.find? p = none) : (l₁ ++ l₂).find? p = l₂.find? p := by
  rw [List.find?_append, h, Option.none_or]

theorem eraseP_append_none {α} {p : α → Bool} {l₁ : List α} (l₂ : List α)
    (h : l₁.find? p = none) : (l₁ ++ l₂).eraseP p = l₁ ++ l₂.eraseP p := by
  induction l₁ with
  | nil => rfl
  | cons a t ih =>
    by_cases hp : p a = true
    · rw [List.find?_cons_of_pos t hp] at h
      exact absurd h (by simp)
    · rw [List.find?_cons_of_neg t hp] at h
      simp only [List.cons_append, List.eraseP_cons_of_neg hp, ih h]

theorem find?_eraseP_of_countP_le_one {α} (p : α → Bool) (l : List α)
    (h : l.countP p ≤ 1) : (l.eraseP p).find? p = none := by
  induction l with
  | nil => rfl
  | cons a l ih =>
    by_cases hp : p a = true
    · rw [List.eraseP_cons_of_pos hp]
      rw [List.countP_cons_of_pos p l hp] at h
      have h0 : l.countP p = 0 := by omega
      rw [List.find?_eq_none]
      exact List.countP_eq_zero.mp h0
    · rw [List.eraseP_cons_of_neg hp, List.find?_cons_of_neg _ hp]
      rw [List.countP_cons_of_neg p l hp] at h
      exact ih h

theorem reverse_find_user (l₁ l₂ : List Message) (m : Message)
    (hm : m.isUserMsg = true) (hl : ∀ x ∈ l₂, x.isUserMsg = false) :
    (l₁ ++ m :: l₂).reverse.find? Message.isUserMsg = some m := by
  rw [List.reverse_append, List.reverse_cons, List.append_assoc,
    List.singleton_append]
  rw [find?_append_none _ (List.find?_eq_none.mpr ?_)]
  · exact List.find?_cons_of_pos _ hm
  · intro x hx
    simp [hl x (List.mem_reverse.mp hx)]

/-- C1: for every message sequence entering the decide step, the repair
pass keeps the surviving messages in their original order (the cleaned
sequence is a sublist of the input), and an assistant message declaring
tool calls is kept at an occurrence only if every declared call id has a
matching tool response later, before the next user message; an occurrence
failing that check is dropped. -/
theorem c1_decide_tool_call_completeness :
    (∀ msgs : List Message, (cleanMessages msgs).Sublist msgs) ∧
    (∀ (m : Message) (post : List Message),
      m.isAi = true → m.tool_calls ≠ [] →
      ((declaredMatched m post = false →
          cleanMessages (m :: post) = cleanMessages post) ∧
       (cleanMessages (m :: post) = m :: cleanMessages post →
          declaredMatched m post = true))) := by
  constructor
  · intro msgs
    induction msgs with
    | nil => simp [cleanMessages]
    | cons m rest ih =>
      simp only [cleanMessages]
      by_cases h1 : (m.isAi && !m.tool_calls.isEmpty) = true
      · rw [if_pos h1]
        by_cases h2 : keepIncompleteCheck m rest = true
        · rw [if_pos h2]
          exact ih.cons₂ m
        · rw [if_neg h2]
          exact ih.cons m
      · rw [if_neg h1]
        exact ih.cons₂ m
  · intro m post hai htc
    have h1 : (m.isAi && !m.tool_calls.isEmpty) = true := by
      cases htc' : m.tool_calls with
      | nil => exact absurd htc' htc
      | cons a l => simp [hai, htc']
    constructor
    · intro hnm
      simp only [cleanMessages]
      rw [if_pos h1, if_neg]
      intro hk
      have := ((keepIncompleteCheck_iff m post).mp hk).2
      rw [hnm] at this
      exact Bool.false_ne_true this
    · intro heq
      by_cases hk : keepIncompleteCheck m post = true
      · exact ((keepIncompleteCheck_iff m post).mp hk).2
      · exfalso
        have hskip : cleanMessages (m :: post) = cleanMessages post := by
          simp only [cleanMessages]
          rw [if_pos h1, if_neg hk]
        rw [hskip] at heq
        have := congrArg List.length heq
        simp only [List.length_cons] at this
        omega

/-- C1 witness: the Scenario-D checkpoint — an assistant message with two
declared tool calls but only one tool response is dropped by the repair
pass. -/
theorem c1_decide_tool_call_completeness_witness :
    cleanMessages [cWitAiMsg, cWitToolMsg] = [cWitToolMsg] := by
  have h := (c1_decide_tool_call_completeness.2 cWitAiMsg [cWitToolMsg]
    (by decide) (by decide)).1 (by decide)
  exact h.trans (by decide)

/-- C2: whenever the last-6-message window already holds two or more
tool-response messages, `grade_documents` returns `"generate_answer"`
without invoking the grader model, for every possible grader judgement —
so at most one rewrite happens per question cycle. -/
theorem c2_grade_rewrite_loop_bound (messages : List Message)
    (graderScore : String)
    (h : 2 ≤ (recentWindow messages).countP isToolResponse) :
    grade_documents messages graderScore = ("generate_answer", false) := by
  have hmono : (recentWindow messages).countP isToolResponse ≤
      (recentWindow messages).countP countedAsToolResponse := by
    apply List.countP_mono_left
    intro m _ hm
    unfold isToolResponse at hm
    unfold countedAsToolResponse
    cases hd : m.isDict <;> simp_all
  simp only [grade_documents]
  rw [if_pos (le_trans h hmono)]

/-- C2 witness: two genuine tool responses in the window force
`generate_answer` even under a `"no"` grading judgement. -/
theorem c2_grade_rewrite_loop_bound_witness :
    grade_documents [cWitToolResponse, cWitToolResponse] "no"
      = ("generate_answer", false) :=
  c2_grade_rewrite_loop_bound [cWitToolResponse, cWitToolResponse] "no"
    (by decide)

/-- C3 (code bug): the built graph has no human-gate node at all — the
conditional edge from the decide step routes a sensitive
`apply_for_leave` tool call directly to the tools node, so the tool
executes without any approval interrupt; yet the gate node the code
defines (and never wires in) would emit exactly the claimed
`tool_approval` interrupt with `approve`/`reject` options, return to the
decide step with the injected user message on `reject`, and proceed to
the tools node on `approve`. -/
theorem c3_sensitive_tools_bypass_human_gate :
    ragGraphNodes.contains "human_approval" = false ∧
    ragGraphNodes.contains "human_gate" = false ∧
    SENSITIVE_TOOLS.contains "apply_for_leave" = true ∧
    tools_condition [sensitiveLeaveCallMsg] = "tools" ∧
    decideEdgeTarget (tools_condition [sensitiveLeaveCallMsg]) = "tools" ∧
    human_approval_node true SENSITIVE_TOOLS [sensitiveLeaveCallMsg]
        ⟨false, some "reject"⟩ =
      (some ⟨"tool_approval",
        "The agent wants to perform the following actions. Do you approve?",
        ["apply_for_leave"], ["approve", "reject"]⟩,
       ⟨"generate_query_or_respond", [rejectInjectedMessage]⟩) ∧
    human_approval_node true SENSITIVE_TOOLS [sensitiveLeaveCallMsg]
        ⟨true, some "approve"⟩ =
      (some ⟨"tool_approval",
        "The agent wants to perform the following actions. Do you approve?",
        ["apply_for_leave"], ["approve", "reject"]⟩,
       ⟨"tools", []⟩) := by
  refine ⟨rfl, rfl, rfl, rfl, rfl, rfl, rfl⟩

/-- C5: retrieval scoped to actor `A` only ever returns chunks owned by
`A` — never one owned by a different actor `B` — for every query, and at
most `k = 5` chunks are returned. -/
theorem c5_actor_scoped_retrieval (chunks : List Chunk)
    (sim : Chunk → String → Int) (query : String) (A B : Int)
    (hAB : A ≠ B) :
    (∀ c ∈ retrieverForUser chunks (some A) sim query,
        c.owner = some A ∧ c.owner ≠ some B) ∧
    (retrieverForUser chunks (some A) sim query).length ≤ 5 := by
  constructor
  · intro c hc
    simp only [retrieverForUser, get_retriever] at hc
    have h1 := List.mem_of_mem_take hc
    have h2 : c ∈ chunks.filter fun c => c.owner == some A :=
      (List.perm_insertionSort _ _).mem_iff.mp h1
    have h3 := (List.mem_filter.mp h2).2
    have h4 : c.owner = some A := by simpa using h3
    refine ⟨h4, ?_⟩
    rw [h4]
    simp [hAB]
  · simp only [retrieverForUser, get_retriever]
    exact List.length_take_le 5 _

/-- C5 witness: with two chunks owned by actors 1 and 2, retrieval scoped
to actor 1 returns at most 5 chunks and never actor 2's chunk. -/
theorem c5_actor_scoped_retrieval_witness :
    (retrieverForUser [⟨some 1, "a"⟩, ⟨some 2, "b"⟩] (some 1) simZero
      "q").length ≤ 5 ∧
    (retrieverForUser [⟨some 1, "a"⟩, ⟨some 2, "b"⟩] (some 1) simZero
      "q").contains ⟨some 2, "b"⟩ = false :=
  ⟨(c5_actor_scoped_retrieval [⟨some 1, "a"⟩, ⟨some 2, "b"⟩] simZero "q"
      1 2 (by decide)).2, by decide⟩

/-- C6: on a history whose most recent user message is `m` (no user
message follows it), `_get_latest_user_question` returns `m`'s content —
the backward scan, not `messages[0]` — and with `exclude_last` set the
trailing message is excluded from the search, whatever it is. -/
theorem c6_latest_user_question_backward_scan :
    (∀ (l₁ l₂ : List Message) (m : Message),
      m.isUserMsg = true → (∀ x ∈ l₂, x.isUserMsg = false) →
      getLatestUserQuestion (l₁ ++ m :: l₂) false = msgContentForUser m) ∧
    (∀ (l₁ l₂ : List Message) (m trailing : Message),
      m.isUserMsg = true → (∀ x ∈ l₂, x.isUserMsg = false) →
      getLatestUserQuestion (l₁ ++ m :: (l₂ ++ [trailing])) true =
        msgContentForUser m) := by
  constructor
  · intro l₁ l₂ m hm hl
    simp only [getLatestUserQuestion, Bool.false_eq_true, if_neg,
      not_false_iff]
    rw [reverse_find_user l₁ l₂ m hm hl]
  · intro l₁ l₂ m trailing hm hl
    have hsplit : l₁ ++ m :: (l₂ ++ [trailing])
        = (l₁ ++ m :: l₂) ++ [trailing] := by
      simp [List.append_assoc]
    simp only [getLatestUserQuestion, if_pos, hsplit,
      List.dropLast_concat]
    rw [reverse_find_user l₁ l₂ m hm hl]

/-- C6 witness: the most recent user message is found behind an earlier
assistant message, and the trailing tool response is skipped when
`exclude_last` is set. -/
theorem c6_latest_user_question_backward_scan_witness :
    getLatestUserQuestion [cWitAssistantMsg, cWitUserMsg] false
      = .ok "latest question" ∧
    getLatestUserQuestion [cWitAssistantMsg, cWitUserMsg, cWitTrailingTool]
      true = .ok "latest question" := by
  constructor
  · have h := c6_latest_user_question_backward_scan.1 [cWitAssistantMsg]
      [] cWitUserMsg (by decide) (fun x hx => absurd hx (List.not_mem_nil x))
    exact h.trans rfl
  · have h := c6_latest_user_question_backward_scan.2 [cWitAssistantMsg]
      [] cWitUserMsg cWitTrailingTool (by decide)
      (fun x hx => absurd hx (List.not_mem_nil x))
    exact h.trans rfl

/-- C8: `get_session` returns the context exactly when the row exists and
is not expired; an expired row yields `None` and is deleted by that same
read (so a subsequent lookup misses); a row without `expires_at` is never
expired. -/
theorem c8_session_lazy_expiry (db : List SessionRecord) (sid : String)
    (now : Int) :
    (db.find? (sidMatch sid) = none → get_session db sid now = (none, db)) ∧
    (∀ r, db.find? (sidMatch sid) = some r → r.is_expired now = true →
        get_session db sid now = (none, db.eraseP (sidMatch sid)) ∧
        (db.countP (sidMatch sid) ≤ 1 →
          (get_session db sid now).2.find? (sidMatch sid) = none)) ∧
    (∀ r, db.find? (sidMatch sid) = some r → r.is_expired now = false →
        get_session db sid now = (some (toContext r), db)) ∧
    (∀ r : SessionRecord, r.expires_at = none →
        r.is_expired now = false) := by
  refine ⟨?_, ?_, ?_, ?_⟩
  · intro h
    simp only [get_session, h]
  · intro r hr hexp
    have hget : get_session db sid now = (none, db.eraseP (sidMatch sid)) := by
      simp only [get_session, hr, hexp, if_pos]
    refine ⟨hget, fun hcount => ?_⟩
    rw [hget]
    exact find?_eraseP_of_countP_le_one (sidMatch sid) db hcount
  · intro r hr hexp
    simp only [get_session, hr, hexp, Bool.false_eq_true, if_neg,
      not_false_iff]
  · intro r hr
    simp only [SessionRecord.is_expired, hr]

/-- C8 witness: an expired row is reported absent and removed by the
read. -/
theorem c8_session_lazy_expiry_witness :
    get_session [⟨"s1", 42, "Eve", 0, some 10⟩] "s1" 20 = (none, []) := by
  have h := ((c8_session_lazy_expiry [⟨"s1", 42, "Eve", 0, some 10⟩]
    "s1" 20).2.1 ⟨"s1", 42, "Eve", 0, some 10⟩ (by decide) (by decide)).1
  exact h.trans (by decide)

/-- C9 counterexample: a session created with a zero TTL gets
`expires_at = None`, so the very next read — at any later time — still
returns it and leaves it in storage, contradicting the claimed
absent-on-next-read behaviour. -/
theorem c9_zero_ttl_counterexample :
    (create_session [] "s1" 42 "Eve" 0 100).1.expires_at = none ∧
    (get_session (create_session [] "s1" 42 "Eve" 0 100).2 "s1"
        1000000000).1 = some ⟨"s1", 42, "Eve", 100⟩ ∧
    (get_session (create_session [] "s1" 42 "Eve" 0 100).2 "s1"
        1000000000).2 = (create_session [] "s1" 42 "Eve" 0 100).2 := by
  refine ⟨rfl, rfl, rfl⟩

/-- C9 (amended): `create_session` with a nonpositive TTL stores no
expiry, so such a session never expires; only a session whose positive
TTL has elapsed by the next read is absent on that read, which also
removes it from storage, and every later read still reports it absent. -/
theorem c9_elapsed_ttl_lazy_deletion (db : List SessionRecord)
    (sid : String) (eid : Int) (ename : String) (ttl now now2 now3 : Int)
    (h0 : db.find? (sidMatch sid) = none) (h1 : 0 < ttl)
    (h2 : now + ttl * 3600 < now2) :
    (∀ ttl0 : Int, ttl0 ≤ 0 →
      (create_session db sid eid ename ttl0 now).1.expires_at = none) ∧
    (get_session (create_session db sid eid ename ttl now).2 sid now2).1
      = none ∧
    (get_session (create_session db sid eid ename ttl now).2 sid now2).2
      = db ∧
    (get_session
      (get_session (create_session db sid eid ename ttl now).2 sid now2).2
      sid now3).1 = none := by
  have hrec : sidMatch sid (⟨sid, eid, ename, now,
      some (now + ttl * 3600)⟩ : SessionRecord) = true := by
    simp [sidMatch]
  have hcr : (create_session db sid eid ename ttl now).2
      = db ++ [⟨sid, eid, ename, now, some (now + ttl * 3600)⟩] := by
    simp only [create_session, h0]
    rw [if_pos h1]
  have hfind : (db ++ [(⟨sid, eid, ename, now,
      some (now + ttl * 3600)⟩ : SessionRecord)]).find? (sidMatch sid)
      = some ⟨sid, eid, ename, now, some (now + ttl * 3600)⟩ := by
    rw [find?_append_none _ h0]
    exact List.find?_cons_of_pos _ hrec
  have hexp : (⟨sid, eid, ename, now, some (now + ttl * 3600)⟩ :
      SessionRecord).is_expired now2 = true := by
    simp only [SessionRecord.is_expired]
    exact decide_eq_true h2
  have herase : (db ++ [(⟨sid, eid, ename, now,
      some (now + ttl * 3600)⟩ : SessionRecord)]).eraseP (sidMatch sid)
      = db := by
    rw [eraseP_append_none _ h0, List.eraseP_cons_of_pos hrec,
      List.append_nil]
  have hget : get_session (create_session db sid eid ename ttl now).2 sid
      now2 = (none, db) := by
    rw [hcr]
    simp only [get_session, hfind, hexp, if_pos, herase]
  refine ⟨?_, ?_, ?_, ?_⟩
  · intro ttl0 ht0
    simp only [create_session, h0]
    rw [if_neg (by omega)]
  · rw [hget]
  · rw [hget]
  · rw [hget]
    simp only [get_session, h0]

/-- C9 amended witness: a session created at time 100 with a 1-hour TTL is
absent and deleted when read at time 10000. -/
theorem c9_elapsed_ttl_lazy_deletion_witness :
    (get_session (create_session [] "s1" 42 "Eve" 1 100).2 "s1" 10000).1
      = none ∧
    (get_session (create_session [] "s1" 42 "Eve" 1 100).2 "s1" 10000).2
      = [] := by
  have h := c9_elapsed_ttl_lazy_deletion [] "s1" 42 "Eve" 1 100 10000 0
    rfl (by decide) (by decide)
  exact ⟨h.2.1, h.2.2.1⟩

/-- C10 counterexample: on a user-message-free history whose first
message is dict-style, `_get_latest_user_question` does not return the
first message's content — the `messages[0].content` fallback is an
attribute access, which raises `AttributeError` on a dict. -/
theorem c10_no_user_fallback_counterexample :
    getLatestUserQuestion [dictAssistantMsg] false
      = .error "AttributeError" ∧
    (getLatestUserQuestion [dictAssistantMsg] false).toOption = none := by
  exact ⟨rfl, rfl⟩

/-- C10 (amended): on a nonempty history with no user-role message the
function evaluates `messages[0].content`: the first message's content for
an attribute-style message, an `AttributeError` for a dict-style one; the
empty list yields the empty string. -/
theorem c10_no_user_fallback (m0 : Message) (rest : List Message)
    (h : ∀ x ∈ m0 :: rest, x.isUserMsg = false) :
    getLatestUserQuestion (m0 :: rest) false = attrContent m0 ∧
    getLatestUserQuestion [] false = .ok "" ∧
    getLatestUserQuestion [] true = .ok "" := by
  refine ⟨?_, rfl, rfl⟩
  have hnone : (m0 :: rest).reverse.find? Message.isUserMsg = none := by
    rw [List.find?_eq_none]
    intro x hx
    simp [h x (List.mem_reverse.mp hx)]
  simp only [getLatestUserQuestion, Bool.false_eq_true, if_neg,
    not_false_iff, hnone]

/-- C10 amended witness: an attribute-style first message's content is
returned when no user message exists. -/
theorem c10_no_user_fallback_witness :
    getLatestUserQuestion [cWitAssistantMsg] false = .ok "hello there" := by
  have h := (c10_no_user_fallback cWitAssistantMsg []
    (by intro x hx; simp at hx; rw [hx]; decide)).1
  exact h.trans rfl

theorem wellTerminated_singleton (e : OutEvent) (h : e.isTerminal = true) :
    wellTerminated [e] :=
  ⟨rfl, e, rfl, h⟩

theorem wellTerminated_cons_token (c t : String) (l : List OutEvent)
    (h : wellTerminated l) : wellTerminated (OutEvent.token c t :: l) := by
  obtain ⟨h1, e, hlast, hterm⟩ := h
  have hne : l ≠ [] := by
    intro h0
    rw [h0] at hlast
    simp at hlast
  obtain ⟨b, l', rfl⟩ := List.exists_cons_of_ne_nil hne
  refine ⟨?_, e, ?_, hterm⟩
  · simp only [List.all_eq_true, List.dropLast_cons₂, List.mem_cons,
      forall_eq_or_imp] at h1 ⊢
    exact ⟨rfl, h1⟩
  · rw [List.getLast?_cons_cons]
    exact hlast

theorem streamChatAux_wellTerminated (tid errMsg : String) :
    ∀ (events : List GraphEvent) (exn : Option Nat) (full : String)
      (ut : Bool),
      wellTerminated (streamChatAux tid errMsg events exn full ut) := by
  intro events
  induction events with
  | nil =>
    intro exn full ut
    cases exn with
    | none => exact wellTerminated_singleton _ rfl
    | some n =>
      cases n with
      | zero => exact wellTerminated_singleton _ rfl
      | succ k => exact wellTerminated_singleton _ rfl
  | cons e rest ih =>
    intro exn full ut
    have hbody : ∀ exn' : Option Nat, exn' ≠ some 0 →
        streamChatAux tid errMsg (e :: rest) exn' full ut =
          match interruptPayloadChat e with
          | some p => [.interrupt p tid]
          | none =>
            match tokenContent e (updateUsingTools e ut) with
            | some c =>
              .token c tid :: streamChatAux tid errMsg rest
                (exn'.map (· - 1)) (full ++ c) (updateUsingTools e ut)
            | none =>
              streamChatAux tid errMsg rest (exn'.map (· - 1)) full
                (updateUsingTools e ut) := by
      intro exn' hx
      cases exn' with
      | none => rfl
      | some n =>
        cases n with
        | zero => exact absurd rfl hx
        | succ k => rfl
    cases exn with
    | some n =>
      cases n with
      | zero => exact wellTerminated_singleton _ rfl
      | succ k =>
        rw [hbody (some (k + 1)) (by simp)]
        cases hI : interruptPayloadChat e with
        | some p => exact wellTerminated_singleton _ rfl
        | none =>
          cases hT : tokenContent e (updateUsingTools e ut) with
          | some c => exact wellTerminated_cons_token _ _ _ (ih _ _ _)
          | none => exact ih _ _ _
    | none =>
      rw [hbody none (by simp)]
      cases hI : interruptPayloadChat e with
      | some p => exact wellTerminated_singleton _ rfl
      | none =>
        cases hT : tokenContent e (updateUsingTools e ut) with
        | some c => exact wellTerminated_cons_token _ _ _ (ih _ _ _)
        | none => exact ih _ _ _

theorem streamResumeAux_wellTerminated (tid errMsg : String) :
    ∀ (events : List GraphEvent) (exn : Option Nat) (full : String)
      (ut : Bool),
      wellTerminated (streamResumeAux tid errMsg events exn full ut) := by
  intro events
  induction events with
  | nil =>
    intro exn full ut
    cases exn with
    | none => exact wellTerminated_singleton _ rfl
    | some n =>
      cases n with
      | zero => exact wellTerminated_singleton _ rfl
      | succ k => exact wellTerminated_singleton _ rfl
  | cons e rest ih =>
    intro exn full ut
    have hbody : ∀ exn' : Option Nat, exn' ≠ some 0 →
        streamResumeAux tid errMsg (e :: rest) exn' full ut =
          match interruptPayloadResume e with
          | some p => [.interrupt p tid]
          | none =>
            match tokenContent e (updateUsingTools e ut) with
            | some c =>
              .token c tid :: streamResumeAux tid errMsg rest
                (exn'.map (· - 1)) (full ++ c) (updateUsingTools e ut)
            | none =>
              streamResumeAux tid errMsg rest (exn'.map (· - 1)) full
                (updateUsingTools e ut) := by
      intro exn' hx
      cases exn' with
      | none => rfl
      | some n =>
        cases n with
        | zero => exact absurd rfl hx
        | succ k => rfl
    cases exn with
    | some n =>
      cases n with
      | zero => exact wellTerminated_singleton _ rfl
      | succ k =>
        rw [hbody (some (k + 1)) (by simp)]
        cases hI : interruptPayloadResume e with
        | some p => exact wellTerminated_singleton _ rfl
        | none =>
          cases hT : tokenContent e (updateUsingTools e ut) with
          | some c => exact wellTerminated_cons_token _ _ _ (ih _ _ _)
          | none => exact ih _ _ _
    | none =>
      rw [hbody none (by simp)]
      cases hI : interruptPayloadResume e with
      | some p => exact wellTerminated_singleton _ rfl
      | none =>
        cases hT : tokenContent e (updateUsingTools e ut) with
        | some c => exact wellTerminated_cons_token _ _ _ (ih _ _ _)
        | none => exact ih _ _ _

/-- C4: for every event stream and every possible failure point, the turn
output of the streaming orchestrator — `stream_chat` and `stream_resume`
alike — is a sequence of token events followed by exactly one terminal
event (`done`, `interrupt` or `error`): a terminal event is always
present, it is last, and no event follows it. -/
theorem c4_stream_single_terminal_event (tid errMsg : String)
    (events : List GraphEvent) (exn : Option Nat) :
    wellTerminated (stream_chat tid errMsg events exn) ∧
    wellTerminated (stream_resume tid errMsg events exn) :=
  ⟨streamChatAux_wellTerminated tid errMsg events exn "" false,
   streamResumeAux_wellTerminated tid errMsg events exn "" false⟩

theorem goodTrace_nil : goodTrace [] :=
  fun r hr => absurd hr (List.not_mem_nil r)

theorem goodTrace_append {l₁ l₂ : List HttpReq} (h1 : goodTrace l₁)
    (h2 : goodTrace l₂) : goodTrace (l₁ ++ l₂) := by
  intro r hr
  rcases List.mem_append.mp hr with h | h
  exacts [h1 r h, h2 r h]

theorem goodTrace_hrmsReq (e : String) : goodTrace [hrmsReq e] := by
  intro r hr
  simp only [List.mem_singleton] at hr
  rw [hr]
  rfl

theorem encrypt_value_goodTrace (w : HrmsWorld) (v : String) :
    goodTrace (encrypt_value w v).2 := by
  unfold encrypt_value
  cases w.encryptResp v with
  | exn m => exact goodTrace_hrmsReq _
  | resp st text js =>
    dsimp only
    split
    · exact goodTrace_hrmsReq _
    · exact goodTrace_hrmsReq _

theorem get_hrms_token_goodTrace (w : HrmsWorld) :
    goodTrace (get_hrms_token w).2 := by
  unfold get_hrms_token
  have g1 := encrypt_value_goodTrace w HRMS_USERNAME
  have g2 := encrypt_value_goodTrace w HRMS_PASSWORD
  rcases hp1 : encrypt_value w HRMS_USERNAME with ⟨eu, t1⟩
  rcases hp2 : encrypt_value w HRMS_PASSWORD with ⟨ep, t2⟩
  rw [hp1] at g1
  rw [hp2] at g2
  have g12 : goodTrace (t1 ++ t2) := goodTrace_append g1 g2
  have gtr : goodTrace (t1 ++ t2
      ++ [hrmsReq "POST /api/ControlPanel/Access/login"]) :=
    goodTrace_append g12 (goodTrace_hrmsReq _)
  dsimp only
  split
  · exact g12
  · cases w.loginResp with
    | exn m => exact gtr
    | resp st text js =>
      dsimp only
      repeat' split
      all_goals exact gtr

theorem hrmsStep_goodTrace (tr : List HttpReq) (ep : String)
    (oc : CallOutcome)
    (k : Nat → String → Option JVal → List HttpReq →
      Except String (Option String) × List HttpReq)
    (htr : goodTrace tr)
    (hk : ∀ st text js tr', goodTrace tr' →
      goodTrace (k st text js tr').2) :
    goodTrace (hrmsStep tr ep oc k).2 := by
  unfold hrmsStep
  have h' : goodTrace (tr ++ [hrmsReq ep]) :=
    goodTrace_append htr (goodTrace_hrmsReq ep)
  cases oc with
  | exn m => exact h'
  | resp st text js => exact hk st text js _ h'

theorem submitHandler_trace (fd td : String) (tdays : Int) (rsn : String)
    (phone addr : Option JVal) (sst : Nat) (stext : String)
    (sjs : Option JVal) (tr : List HttpReq) :
    (submitHandler fd td tdays rsn phone addr sst stext sjs tr).2 = tr := by
  unfold submitHandler
  repeat' first | split | (dsimp only; split)
  all_goals rfl

theorem applyLeaveTry_goodTrace (w : HrmsWorld) (emp : Int)
    (fd td : String) (tdays : Int) (rsn : String) (tr0 : List HttpReq)
    (h0 : goodTrace tr0) :
    goodTrace (applyLeaveTry w emp fd td tdays rsn tr0).2 := by
  unfold applyLeaveTry
  refine hrmsStep_goodTrace _ _ _ _ h0 ?_
  intro st1 t1 j1 tr1 htr1
  refine hrmsStep_goodTrace _ _ _ _ htr1 ?_
  intro st2 t2 j2 tr2 htr2
  refine hrmsStep_goodTrace _ _ _ _ htr2 ?_
  intro st3 t3 j3 tr3 htr3
  refine hrmsStep_goodTrace _ _ _ _ htr3 ?_
  intro mst mtext mjs tr4 htr4
  dsimp only
  split
  · exact htr4
  · refine hrmsStep_goodTrace _ _ _ _ htr4 ?_
    intro ast atext ajs tr5 htr5
    dsimp only
    split
    · exact htr5
    · refine hrmsStep_goodTrace _ _ _ _ htr5 ?_
      intro dst dtext djs tr6 htr6
      dsimp only
      split
      · exact htr6
      · split
        · exact htr6
        · refine hrmsStep_goodTrace _ _ _ _ htr6 ?_
          intro sst stext sjs tr7 htr7
          rw [submitHandler_trace]
          exact htr7

theorem hrmsStep_ok (tr : List HttpReq) (ep : String) (oc : CallOutcome)
    (k : Nat → String → Option JVal → List HttpReq →
      Except String (Option String) × List HttpReq)
    (hk : ∀ st text js tr', ∃ res, (k st text js tr').1 = .ok res) :
    ∃ res, (hrmsStep tr ep oc k).1 = .ok res := by
  unfold hrmsStep
  cases oc with
  | exn m => exact ⟨_, rfl⟩
  | resp st text js => exact hk st text js _

theorem submitHandler_ok (fd td : String) (tdays : Int) (rsn : String)
    (phone addr : Option JVal) (sst : Nat) (stext : String)
    (sjs : Option JVal) (tr : List HttpReq) :
    ∃ res, (submitHandler fd td tdays rsn phone addr sst stext sjs
      tr).1 = .ok res := by
  unfold submitHandler
  repeat' first | split | (dsimp only; split)
  all_goals exact ⟨_, rfl⟩

theorem applyLeaveTry_ok (w : HrmsWorld) (emp : Int) (fd td : String)
    (tdays : Int) (rsn : String) (tr0 : List HttpReq) :
    ∃ res, (applyLeaveTry w emp fd td tdays rsn tr0).1 = .ok res := by
  unfold applyLeaveTry
  refine hrmsStep_ok _ _ _ _ ?_
  intro st1 t1 j1 tr1
  refine hrmsStep_ok _ _ _ _ ?_
  intro st2 t2 j2 tr2
  refine hrmsStep_ok _ _ _ _ ?_
  intro st3 t3 j3 tr3
  refine hrmsStep_ok _ _ _ _ ?_
  intro mst mtext mjs tr4
  dsimp only
  split
  · exact ⟨_, rfl⟩
  · refine hrmsStep_ok _ _ _ _ ?_
    intro ast atext ajs tr5
    dsimp only
    split
    · exact ⟨_, rfl⟩
    · refine hrmsStep_ok _ _ _ _ ?_
      intro dst dtext djs tr6
      dsimp only
      split
      · exact ⟨_, rfl⟩
      · split
        · exact ⟨_, rfl⟩
        · exact hrmsStep_ok _ _ _ _ fun sst stext sjs tr7 =>
            submitHandler_ok fd td tdays rsn _ _ sst stext sjs tr7

/-- C7 (amended): every HTTP request `apply_for_leave` issues — under any
behaviour of the HR endpoints — carries the bounded 30-second timeout;
and provided the start date (after formatting) parses and the requested
span keeps the end date inside the `datetime` range, the tool never
raises: every endpoint failure yields an `.ok` result (a textual error
string, or Python's implicit `None` in the one HTTP-200-without-truthy-
status submission case exhibited by the counterexample).  Outside those
conditions the bare `strptime` (line 202) raises `ValueError` and the
bare `timedelta` addition (line 203) raises `OverflowError`, both shown
by the counterexample. -/
theorem c7_leave_tool_amended (w : HrmsWorld) (currentYear : Int)
    (ctx : Option Int) (start_date : String) (total_days : Int)
    (reason : String) (eid lti : Option Int) (dlt hdt : Option String) :
    goodTrace (apply_for_leave w currentYear ctx start_date total_days
      reason eid lti dlt hdt).2 ∧
    (∀ dt toDt, parseYMD (format_datetime currentYear start_date) = some dt →
      addDaysChecked dt (total_days - 1) = .ok toDt →
      ∃ res : Option String,
        (apply_for_leave w currentYear ctx start_date total_days reason
          eid lti dlt hdt).1 = .ok res) := by
  constructor
  · unfold apply_for_leave
    dsimp only
    cases hp : parseYMD (format_datetime currentYear start_date) with
    | none => exact goodTrace_nil
    | some dt =>
      dsimp only
      cases ha : addDaysChecked dt (total_days - 1) with
      | error e => exact goodTrace_nil
      | ok toDt =>
        dsimp only
        have gt := get_hrms_token_goodTrace w
        rcases ht : get_hrms_token w with ⟨tok, tr0⟩
        rw [ht] at gt
        cases tok with
        | none => exact gt
        | some t => exact applyLeaveTry_goodTrace w _ _ _ _ _ tr0 gt
  · intro dt toDt hp ha
    unfold apply_for_leave
    dsimp only
    rw [hp]
    dsimp only
    rw [ha]
    dsimp only
    rcases ht : get_hrms_token w with ⟨tok, tr0⟩
    cases tok with
    | none => exact ⟨_, rfl⟩
    | some t => exact applyLeaveTry_ok w _ _ _ _ _ tr0

/-- C7 counterexample: with every preparatory endpoint healthy, a final
submission answering HTTP 200 with `{"status": false}` makes the tool
return Python's `None` instead of a textual error-result string; a start
date matching none of the eleven formats makes the bare `strptime` on
line 202 raise `ValueError` to the caller; and even with a perfectly
parseable start date, a large `total_days` makes line 203's
`from_dt + timedelta(days=total_days - 1)` — also outside every `try` —
raise `OverflowError` to the caller, at the `timedelta` bound
(1000000001) and at the year-9999 ceiling (4000000). -/
theorem c7_leave_tool_counterexample :
    (apply_for_leave W7none 2025 none "2025-03-10" 2 "trip" none none
      none none).1 = .ok none ∧
    (apply_for_leave W7none 2025 none "next monday" 2 "trip" none none
      none none).1 = .error "ValueError" ∧
    (apply_for_leave W7none 2025 none "2025-03-10" 1000000001 "trip" none
      none none none).1 = .error "OverflowError" ∧
    (apply_for_leave W7none 2025 none "2025-03-10" 4000000 "trip" none
      none none none).1 = .error "OverflowError" :=
  ⟨by with_unfolding_all rfl, by with_unfolding_all rfl,
   by with_unfolding_all rfl, by with_unfolding_all rfl⟩

/-- C7 amended witness: with a timing-out login, every issued request
still carries the 30-second timeout and the tool returns a textual result
rather than raising. -/
theorem c7_leave_tool_amended_witness :
    ((apply_for_leave W7fail 2025 none "2025-03-10" 2 "trip" none none
      none none).2.all fun r => r.timeout == 30) = true ∧
    exceptIsOk (apply_for_leave W7fail 2025 none "2025-03-10" 2 "trip"
      none none none none).1 = true := by
  constructor
  · have hg := (c7_leave_tool_amended W7fail 2025 none "2025-03-10" 2
      "trip" none none none none).1
    exact List.all_eq_true.mpr fun r hr => by
      rw [beq_iff_eq]
      exact hg r hr
  · obtain ⟨res, hres⟩ := (c7_leave_tool_amended W7fail 2025 none
      "2025-03-10" 2 "trip" none none none none).2 ⟨2025, 3, 10⟩
      ⟨2025, 3, 11⟩ (by with_unfolding_all rfl)
      (by with_unfolding_all rfl)
    rw [hres]
    rfl

end HRMS
